import Mathlib

set_option maxRecDepth 8000

/-!
Verification of `music21/graph/utilities.py`: a shallow embedding of the
module's color-normalization and name-normalization utilities, together with
proofs about them.

Python strings are embedded as Lean `String`s (operated on through their
`List Char` data).  Python numbers (ints and floats) are embedded as `ℚ`;
float arithmetic on the inputs the module handles is exact at the rationals
involved.  Fallible Python code is embedded as `Except M21Exception _`, one
constructor per Python exception class that can escape the functions here.
-/

/-- Embedding of Python `str.lower` (the module only ever lowercases ASCII
color/format names); this is core `Char.toLower`, which lowercases exactly
the basic latin letters and leaves every other character unchanged. -/
def pyToLower (c : Char) : Char := Char.toLower c

/-- Charwise lowercasing of a Python string's characters (`str.lower`). -/
def pyLower (s : List Char) : List Char := s.map pyToLower

/-- Fueled core of `replaceList`; consumes at least one input character per
step, so fuel `s.length` suffices for a nonempty pattern. -/
def replaceListAux (p r : List Char) : Nat → List Char → List Char
  | 0, s => s
  | _ + 1, [] => []
  | fuel + 1, c :: rest =>
      if p.isPrefixOf (c :: rest) then
        r ++ replaceListAux p r fuel ((c :: rest).drop p.length)
      else
        c :: replaceListAux p r fuel rest

/-- Embedding of Python `str.replace(p, r)`: replace every non-overlapping
occurrence of `p` in `s`, scanning left to right.  (The module never calls
`replace` with an empty pattern; for `p = []` this returns `s` unchanged.) -/
def replaceList (p r s : List Char) : List Char :=
  if p.isEmpty then s else replaceListAux p r s.length s

/-- Embedding of `value.lower().replace(' ', '')`, the normalization applied
to user-supplied format, value and color-name strings. -/
def pyNormChars (s : List Char) : List Char :=
  replaceList [' '] [] (pyLower s)

/-- Embedding of Python's `p in s` substring test. -/
def subOccurs (p : List Char) : List Char → Bool
  | [] => p.isEmpty
  | c :: rest => p.isPrefixOf (c :: rest) || subOccurs p rest

/-- A hexadecimal digit character, `[0-9a-fA-F]` (the character class of the
hex-color validation). -/
def isHexChar (c : Char) : Bool :=
  ((48 ≤ c.toNat && c.toNat ≤ 57) || (97 ≤ c.toNat && c.toNat ≤ 102)) ||
    (65 ≤ c.toNat && c.toNat ≤ 70)

/-- A lowercase hexadecimal digit character, `[0-9a-f]`. -/
def isLowerHex (c : Char) : Bool :=
  (48 ≤ c.toNat && c.toNat ≤ 57) || (97 ≤ c.toNat && c.toNat ≤ 102)

/-- The Python exception classes that can escape the functions embedded
here: `GraphException` (the module's own error class, raised at every
`raise` site of `getColor` and `getExtendedModules`), and the builtin
`IndexError` and `TypeError` that unhandled code paths can raise. -/
inductive M21Exception where
  | graphException (msg : String)
  | indexError (msg : String)
  | typeError (msg : String)
  deriving DecidableEq

deriving instance DecidableEq for Except

/-- The Python class name of an exception — the "kind" a caller could
dispatch on with `except SomeClass`. -/
def M21Exception.className : M21Exception → String
  | M21Exception.graphException _ => ("GraphException")
  | M21Exception.indexError _ => ("IndexError")
  | M21Exception.typeError _ => ("TypeError")

/-- Class name of the exception of a failed computation (`"ok"` on success). -/
def errClass {α : Type} : Except M21Exception α → String
  | Except.error e => e.className
  | Except.ok _ => ("ok")

/-- One hexadecimal digit character for `n < 16` (lowercase, as Python `%x`). -/
def hexDigit (n : Nat) : Char :=
  if n < 10 then Char.ofNat (48 + n) else Char.ofNat (87 + n)

/-- Fueled big-endian hex digits of `n` (empty for `0`). -/
def natHexAux : Nat → Nat → List Char
  | 0, _ => []
  | fuel + 1, n => if n = 0 then [] else natHexAux fuel (n / 16) ++ [hexDigit (n % 16)]

/-- Hexadecimal digits of a natural number, as Python's `%x` renders it. -/
def natHex (n : Nat) : List Char :=
  if n = 0 then ['0'] else natHexAux n n

def leftPad (c : Char) (w : Nat) (l : List Char) : List Char :=
  List.replicate (w - l.length) c ++ l

/-- Embedding of Python's `'%02x' % z` (the per-channel conversion inside
`webcolors.rgb_to_hex`): hex digits zero-padded to a minimum total width of
2, a `-` sign counting toward the width for negative values. -/
def toHex2 (z : ℤ) : List Char :=
  if 0 ≤ z then leftPad ('0') 2 (natHex z.toNat)
  else '-' :: leftPad ('0') 1 (natHex z.natAbs)

/-- Multiplication on `ℚ` written out on numerator and denominator.  The
library's `Rat.mul` is marked irreducible, which would block kernel
evaluation of the concrete color computations below; `ratMul_eq` below shows
this is ordinary multiplication. -/
def ratMul (a b : ℚ) : ℚ := mkRat (a.num * b.num) (a.den * b.den)

/-- Subtraction on `ℚ`, likewise written out; see `ratSub_eq`. -/
def ratSub (a b : ℚ) : ℚ := mkRat (a.num * b.den - b.num * a.den) (a.den * b.den)

/-- Modelled from the spec: the percent→channel conversion inside
`webcolors.rgb_percent_to_hex` (the repository's vendored `webcolors` module
is not among the sources here).  Per §4.1 each channel "rounds its
percentage to the nearest representable 8-bit value — exact rounding rule:
standard percent-to-255 conversion, round-half-up": `num` is
`pct / 100 * 255`, taken to `floor num` when its fractional part is below
one half and to `ceil num` otherwise. -/
def percentToInteger (pct : ℚ) : ℤ :=
  let num : ℚ := ratMul pct (mkRat 255 100)
  if ratSub num (Int.floor num) < mkRat 1 2 then Int.floor num else Int.ceil num

/-- Modelled from the spec: `webcolors.rgb_to_hex` — "interpret the 3 values
directly as 0–255 RGB channel values and convert to hex, zero-padding each
channel to 2 hex digits" (§4.1), i.e. `'#%02x%02x%02x' % tuple(color)`.
Python's `'%x'` rejects non-integers with `TypeError`, and the `%` operator
raises `TypeError` unless the tuple has exactly 3 members. -/
def rgb_to_hex (l : List ℚ) : Except M21Exception String :=
  match l with
  | [r, g, b] =>
      if r.den = 1 && g.den = 1 && b.den = 1 then
        Except.ok (String.mk ('#' :: (toHex2 r.num ++ toHex2 g.num ++ toHex2 b.num)))
      else Except.error (M21Exception.typeError ("%x format: an integer is required"))
  | _ => Except.error (M21Exception.typeError ("not enough arguments for format string"))

/-- Modelled from the spec: `webcolors.rgb_percent_to_hex`.  `getColor`
hands it the strings `str(x * 100) + '%'`; parsing such a string back yields
the rational `x * 100`, so the composition is embedded with the percent
values passed directly as rationals. -/
def rgb_percent_to_hex (ps : List ℚ) : Except M21Exception String :=
  match ps with
  | [r, g, b] =>
      Except.ok (String.mk ('#' :: (toHex2 (percentToInteger r) ++
        toHex2 (percentToInteger g) ++ toHex2 (percentToInteger b))))
  | _ => Except.error (M21Exception.typeError ("not enough arguments for format string"))

/-- Modelled from the spec: `webcolors.normalize_hex` — "normalize shorthand
(3-digit) to full 6-digit form, validate hex digits, lowercase; fails with
InvalidColor on malformed hex" (§4.1); the spec's `InvalidColor` is the
module's `GraphException`. -/
def normalize_hex (s : List Char) : Except M21Exception String :=
  match s with
  | '#' :: ds =>
      if ds.all isHexChar then
        if ds.length = 6 then
          Except.ok (String.mk ('#' :: (ds.map pyToLower)))
        else if ds.length = 3 then
          Except.ok (String.mk ('#' :: ((ds.map pyToLower).flatMap (fun c => [c, c]))))
        else Except.error (M21Exception.graphException
          ("invalid color specification: " ++ String.mk s))
      else Except.error (M21Exception.graphException
        ("invalid color specification: " ++ String.mk s))
  | _ => Except.error (M21Exception.graphException
      ("invalid color specification: " ++ String.mk s))

/-- Modelled from the spec: `webcolors.css3_names_to_hex`, "a large fixed
name→hex table (standard web color names)" (§4.1), abridged to the entries
the claims and doctests exercise plus the abbreviation targets. -/
def css3_names_to_hex : List (String × String) :=
  [("blue", "#0000ff"), ("green", "#008000"), ("red", "#ff0000"),
   ("cyan", "#00ffff"), ("magenta", "#ff00ff"), ("yellow", "#ffff00"),
   ("black", "#000000"), ("white", "#ffffff"), ("steelblue", "#4682b4")]

/-- The one-character matplotlib abbreviation table inside `getColor`
(`utilities.py` lines 232–239). -/
def colorMap : List (String × String) :=
  [("b", "blue"), ("g", "green"), ("r", "red"), ("c", "cyan"),
   ("m", "magenta"), ("y", "yellow"), ("k", "black"), ("w", "white")]

/-- The dynamic shapes of inputs `getColor` is handed: a number (Python int
or float — `common.isNum`, which deliberately excludes booleans), a string,
a list of numbers, or a boolean. -/
inductive ColorSpec where
  | num (q : ℚ)
  | str (s : String)
  | list (l : List ℚ)
  | bool (b : Bool)
  deriving DecidableEq

/-- Python `repr` of a boolean, as `'%s' %` renders it. -/
def pyBoolRepr (b : Bool) : String := if b then ("True") else ("False")

/-- The string branch of `getColor` (`utilities.py` lines 224–247):
`color[0]` (IndexError on the empty string), the hex path, the
abbreviation table for single characters, then the CSS3 name table. -/
def getColorString (s : String) : Except M21Exception String :=
  match s.data with
  | [] => Except.error (M21Exception.indexError ("string index out of range"))
  | c :: cs =>
    if c = '#' then
      normalize_hex (c :: cs)
    else
      let cl := pyNormChars (c :: cs)
      match (if cl.length = 1 then
               match colorMap.lookup (String.mk cl) with
               | some full => Except.ok full
               | none => Except.error (M21Exception.graphException
                   ("invalid color abbreviation: " ++ String.mk cl))
             else Except.ok (String.mk cl)) with
      | Except.error e => Except.error e
      | Except.ok nm =>
        match css3_names_to_hex.lookup nm with
        | some hex => Except.ok hex
        | none => Except.error (M21Exception.graphException
            ("invalid color name: " ++ nm))

/-- The list-like branch of `getColor` (`utilities.py` lines 249–262):
percent mode iff some element is `< 1`; percent mode expands a length-1
list to three channels and multiplies by 100 (the `str(x*100)+'%'` step). -/
def getColorListLike (l : List ℚ) : Except M21Exception String :=
  if l.any (fun sub => sub < 1) then
    rgb_percent_to_hex
      ((if l.length = 1 then [l.head!, l.head!, l.head!] else l).map (fun x => ratMul x 100))
  else
    rgb_to_hex l

/-- Embedding of `getColor` (`utilities.py` lines 186–263): a numeric scalar
is first expanded to three identical channels (line 222), strings go through
hex/abbreviation/name resolution, list-likes through the percent/integer
branch, and anything else — here booleans, which `common.isNum` rejects —
reaches the final invalid-specification `raise`. -/
def getColor : ColorSpec → Except M21Exception String
  | ColorSpec.num q => getColorListLike [q, q, q]
  | ColorSpec.str s => getColorString s
  | ColorSpec.list l => getColorListLike l
  | ColorSpec.bool b => Except.error (M21Exception.graphException
      ("invalid color specification: " ++ pyBoolRepr b))

/-- Modelled from the spec: `pitch.unicodeFromModifier`, the pitch model's
"fixed modifier→glyph mapping" (§4.4; the pitch module is not among the
sources here).  Only the `'-'` and `'#'` entries pass the filter inside
`accidentalLabelToUnicode`. -/
def unicodeFromModifier : List (List Char × List Char) :=
  [("####".data, "𝄪𝄪".data), ("###".data, "♯𝄪".data),
   ("##".data, "𝄪".data), ("#".data, "♯".data),
   ("----".data, "𝄫𝄫".data), ("---".data, "𝄫♭".data),
   ("--".data, "𝄫".data), ("-".data, "♭".data),
   ("".data, "".data)]

/-- The scan loop of `accidentalLabelToUnicode` (`utilities.py` lines
104–108): the first table entry whose modifier is nonempty, occurs in the
label, and is `-` or `#` has every occurrence replaced, then the loop
`break`s. -/
def accLoop : List (List Char × List Char) → List Char → List Char
  | [], label => label
  | (m, u) :: rest, label =>
      if !m.isEmpty && subOccurs m label && (m == ("-").data || m == ("#").data) then
        replaceList m u label
      else accLoop rest label

/-- A label argument: a string, or some non-string Python value (returned
unchanged by `accidentalLabelToUnicode`). -/
inductive PyLabel where
  | str (s : String)
  | nonStr (tag : Nat)
  deriving DecidableEq

/-- Embedding of `accidentalLabelToUnicode` (`utilities.py` lines 82–110). -/
def accidentalLabelToUnicode : PyLabel → PyLabel
  | PyLabel.nonStr t => PyLabel.nonStr t
  | PyLabel.str s => PyLabel.str (String.mk (accLoop unicodeFromModifier s.data))

/-- `FORMAT_SYNONYMS` (`utilities.py` lines 117–123); the first member of
each row is the canonical format name. -/
def FORMAT_SYNONYMS : List (List String) :=
  [["horizontalbar", "bar", "horizontal", "pianoroll", "piano"],
   ["histogram", "histo", "count"],
   ["scatter", "point"],
   ["scatterweighted", "weightedscatter", "weighted"],
   ["3dbars", "3d"],
   ["colorgrid", "grid", "window", "windowed"],
   ["horizontalbarweighted", "barweighted", "weightedbar"]]

/-- Normalization applied to user format/value strings:
`value.lower().replace(' ', '')`. -/
def pyNorm (s : String) : String := String.mk (pyNormChars s.data)

/-- The scan loop of `userFormatsToFormat` (`utilities.py` lines 147–149). -/
def formatScan : List (List String) → String → String
  | [], v => v
  | opt :: rest, v => if opt.contains v then opt.head! else formatScan rest v

/-- Embedding of `userFormatsToFormat` (`utilities.py` lines 126–153): a
total function — unmatched input is returned normalized but unaltered. -/
def userFormatsToFormat (value : String) : String :=
  formatScan FORMAT_SYNONYMS (pyNorm value)

/-- The format resolver as §4.2 words it: "lowercase and remove spaces from
input; scan the fixed ordered list of synonym groups; return the group's
canonical (first) member on first match; otherwise return the normalized
input unchanged". -/
def resolveFormatSpec (text : String) : String :=
  match FORMAT_SYNONYMS.find? (fun g => g.contains (pyNorm text)) with
  | some g => g.head!
  | none => pyNorm text

/-- Embedding of `userValuesToValues` (`utilities.py` lines 158–183): the
loop that builds `post` one element at a time through the synonym if-chain;
a total function — unmatched values pass through normalized. -/
def userValuesToValues : List String → List String
  | [] => []
  | value :: rest =>
      (if (["pitch", "pitchspace", "ps"] : List String).contains (pyNorm value) then ("pitch")
       else if (["pitchclass", "pc"] : List String).contains (pyNorm value) then ("pitchclass")
       else if (["duration", "quarterlength"] : List String).contains (pyNorm value) then
         ("quarterlength")
       else if (["offset", "time"] : List String).contains (pyNorm value) then ("offset")
       else if (["dynamic", "dynamics"] : List String).contains (pyNorm value) then ("dynamics")
       else if (["instrument", "instruments", "instrumentation"] : List String).contains
           (pyNorm value) then ("instrument")
       else pyNorm value) :: userValuesToValues rest

/-- The value synonym table as §4.3 words it: synonym sets paired with their
canonical identifiers. -/
def VALUE_SYNONYMS : List (List String × String) :=
  [(["pitch", "pitchspace", "ps"], "pitch"),
   (["pitchclass", "pc"], "pitchclass"),
   (["duration", "quarterlength"], "quarterlength"),
   (["offset", "time"], "offset"),
   (["dynamic", "dynamics"], "dynamics"),
   (["instrument", "instruments", "instrumentation"], "instrument")]

/-- The element-wise value resolver as §4.3 words it: normalize, map members
of the fixed synonym sets to their canonical identifiers, pass everything
else through normalized but otherwise unchanged. -/
def resolveValueSpec (s : String) : String :=
  match VALUE_SYNONYMS.find? (fun p => p.1.contains (pyNorm s)) with
  | some p => p.2
  | none => pyNorm s

/-- Which optional libraries the running environment can import. -/
structure PlotEnv where
  matplotlibMissing : Bool
  axes3dOk : Bool
  networkxOk : Bool
  deriving DecidableEq

/-- The `ExtendedModules` namedtuple (`utilities.py` lines 37–38); module
references are opaque here, the individually-optional ones are `Option`s
(absent when their import failed). -/
structure ExtendedModules where
  matplotlib : Unit
  Axes3D : Option Unit
  collections : Unit
  patches : Unit
  plt : Unit
  networkx : Option Unit
  deriving DecidableEq

/-- Embedding of `getExtendedModules` (`utilities.py` lines 40–73): raises
`GraphException` when matplotlib is missing; the optional `Axes3D` and
`networkx` imports degrade to absent fields instead of failing. -/
def getExtendedModules (env : PlotEnv) : Except M21Exception ExtendedModules :=
  if env.matplotlibMissing then
    Except.error (M21Exception.graphException
      ("could not find matplotlib, graphing is not allowed"))
  else
    Except.ok ⟨(), if env.axes3dOk then some () else none, (), (), (),
      if env.networkxOk then some () else none⟩

/-- A well-formed canonical color string: `#` followed by exactly 6
lowercase hexadecimal digits (§6). -/
def wellFormed (s : String) : Bool :=
  match s.data with
  | '#' :: ds => ds.length == 6 && ds.all isLowerHex
  | _ => false

/-- A valid hex color string as the hex branch accepts it: `#` followed by
3 or 6 hexadecimal digits. -/
def validHexColor (s : String) : Bool :=
  match s.data with
  | '#' :: ds => (ds.length == 3 || ds.length == 6) && ds.all isHexChar
  | _ => false

/-- The outcome the spec's invariant promises: either a well-formed
`#rrggbb` string, or a `GraphException` whose message begins with
`invalid color` (the spec's descriptive `InvalidColor`). -/
def resultOK : Except M21Exception String → Bool
  | Except.ok s => wellFormed s
  | Except.error (M21Exception.graphException m) => ("invalid color").data.isPrefixOf m.data
  | Except.error _ => false

/-- Inputs on which the spec's return-or-InvalidColor invariant does hold:
everything except the empty string (`color[0]` raises IndexError), channel
lists of a length the `'#%02x%02x%02x'` format cannot consume (TypeError),
and channel values outside the range `'%02x'` renders as exactly two hex
digits (non-integers in integer mode, values outside 0–255). -/
def goodInput : ColorSpec → Prop
  | ColorSpec.num q => (q < 1 → 0 ≤ q) ∧ (1 ≤ q → q.den = 1 ∧ q ≤ 255)
  | ColorSpec.str s => s ≠ ""
  | ColorSpec.list l =>
      ((∃ x ∈ l, x < 1) → (l.length = 3 ∨ l.length = 1) ∧ ∀ x ∈ l, 0 ≤ x ∧ x ≤ 1) ∧
      ((∀ x ∈ l, 1 ≤ x) → l.length = 3 ∧ ∀ x ∈ l, x.den = 1 ∧ x ≤ 255)
  | ColorSpec.bool _ => True

theorem toNat_ofNat_valid (n : Nat) (h : n.isValidChar) :
    (Char.ofNat n).toNat = n := by
  rw [Char.ofNat, dif_pos h]
  rfl

theorem pyToLower_toNat (c : Char) :
    (pyToLower c).toNat = if 65 ≤ c.toNat ∧ c.toNat ≤ 90 then c.toNat + 32 else c.toNat := by
  unfold pyToLower Char.toLower
  by_cases h : 65 ≤ c.toNat ∧ c.toNat ≤ 90
  · rw [if_pos ⟨h.1, h.2⟩, if_pos h]
    exact toNat_ofNat_valid _ (Or.inl (by omega))
  · rw [if_neg, if_neg h]
    intro hc
    exact h ⟨hc.1, hc.2⟩

theorem pyToLower_idem (c : Char) : pyToLower (pyToLower c) = pyToLower c := by
  have h1 := pyToLower_toNat c
  have h2 := pyToLower_toNat (pyToLower c)
  apply Char.ext
  have : (pyToLower (pyToLower c)).toNat = (pyToLower c).toNat := by
    rw [h2, h1]
    by_cases h : 65 ≤ c.toNat ∧ c.toNat ≤ 90
    · simp only [if_pos h]
      rw [if_neg (by omega)]
    · simp only [if_neg h]
  have hval : (pyToLower (pyToLower c)).val.toNat = (pyToLower c).val.toNat := this
  exact UInt32.toNat.inj hval



theorem pyToLower_fix_of_isLowerHex (c : Char) (h : isLowerHex c = true) :
    pyToLower c = c := by
  simp only [isLowerHex, Bool.or_eq_true, Bool.and_eq_true, decide_eq_true_eq] at h
  have hn : (pyToLower c).toNat = c.toNat := by
    rw [pyToLower_toNat, if_neg (by omega)]
  exact Char.ext (UInt32.toNat.inj hn)

theorem isLowerHex_pyToLower_of_isHexChar (c : Char) (h : isHexChar c = true) :
    isLowerHex (pyToLower c) = true := by
  simp only [isHexChar, Bool.or_eq_true, Bool.and_eq_true, decide_eq_true_eq] at h
  simp only [isLowerHex, Bool.or_eq_true, Bool.and_eq_true, decide_eq_true_eq]
  rw [pyToLower_toNat]
  split_ifs <;> omega

theorem isHexChar_of_isLowerHex (c : Char) (h : isLowerHex c = true) :
    isHexChar c = true := by
  simp only [isLowerHex, Bool.or_eq_true, Bool.and_eq_true, decide_eq_true_eq] at h
  simp only [isHexChar, Bool.or_eq_true, Bool.and_eq_true, decide_eq_true_eq]
  omega

theorem pyToLower_eq_space_iff (c : Char) : pyToLower c = ' ' ↔ c = ' ' := by
  constructor
  · intro h
    have hn : (pyToLower c).toNat = 32 := by rw [h]; rfl
    rw [pyToLower_toNat] at hn
    split_ifs at hn with hc
    · omega
    · exact Char.ext (UInt32.toNat.inj hn)
  · intro h
    rw [h]
    rfl

theorem replaceListAux_single_nil (m : Char) :
    ∀ (fuel : Nat) (s : List Char), s.length ≤ fuel →
      replaceListAux [m] [] fuel s = s.filter (fun c => c != m) := by
  intro fuel
  induction fuel with
  | zero =>
      intro s hs
      have : s = [] := List.length_eq_zero.mp (Nat.le_zero.mp hs)
      simp [this, replaceListAux]
  | succ n ih =>
      intro s hs
      cases s with
      | nil => simp [replaceListAux]
      | cons c rest =>
          simp only [replaceListAux, List.isPrefixOf, List.isPrefixOf_nil_left,
            Bool.and_true]
          by_cases hmc : m = c
          · rw [if_pos (by simp [hmc])]
            simp only [List.length_cons, List.drop_succ_cons, List.length_nil,
              List.drop_zero, List.nil_append]
            rw [ih rest (by simpa using hs)]
            simp [List.filter_cons, hmc]
          · rw [if_neg (by simp [hmc])]
            rw [ih rest (by simpa using hs)]
            simp [List.filter_cons, Ne.symm hmc, bne]

theorem replaceList_single_nil (m : Char) (s : List Char) :
    replaceList [m] [] s = s.filter (fun c => c != m) := by
  rw [replaceList, if_neg (by simp)]
  exact replaceListAux_single_nil m s.length s (Nat.le_refl _)

theorem replaceListAux_single_single (m u : Char) :
    ∀ (fuel : Nat) (s : List Char), s.length ≤ fuel →
      replaceListAux [m] [u] fuel s = s.map (fun c => if c == m then u else c) := by
  intro fuel
  induction fuel with
  | zero =>
      intro s hs
      have : s = [] := List.length_eq_zero.mp (Nat.le_zero.mp hs)
      simp [this, replaceListAux]
  | succ n ih =>
      intro s hs
      cases s with
      | nil => simp [replaceListAux]
      | cons c rest =>
          simp only [replaceListAux, List.isPrefixOf, List.isPrefixOf_nil_left,
            Bool.and_true]
          by_cases hmc : m = c
          · rw [if_pos (by simp [hmc])]
            simp only [List.length_cons, List.drop_succ_cons, List.length_nil,
              List.drop_zero, List.singleton_append]
            rw [ih rest (by simpa using hs)]
            simp [hmc]
          · rw [if_neg (by simp [hmc])]
            rw [ih rest (by simpa using hs)]
            simp [List.map_cons, Ne.symm hmc]

theorem replaceList_single_single (m u : Char) (s : List Char) :
    replaceList [m] [u] s = s.map (fun c => if c == m then u else c) := by
  rw [replaceList, if_neg (by simp)]
  exact replaceListAux_single_single m u s.length s (Nat.le_refl _)

theorem subOccurs_single (m : Char) (s : List Char) :
    subOccurs [m] s = s.any (fun c => c == m) := by
  induction s with
  | nil => rfl
  | cons c rest ih =>
      simp only [subOccurs, List.isPrefixOf, List.isPrefixOf_nil_left,
        Bool.and_true, List.any_cons, ih]
      by_cases hmc : m = c <;> simp [hmc, BEq.comm]

theorem pyNormChars_eq (s : List Char) :
    pyNormChars s = (s.map pyToLower).filter (fun c => c != ' ') := by
  rw [pyNormChars, pyLower, replaceList_single_nil]

theorem bne_space_pyToLower (a : Char) : (pyToLower a != ' ') = (a != ' ') := by
  by_cases ha : a = ' '
  · rw [ha]
    rfl
  · have hl : pyToLower a ≠ ' ' := fun h => ha ((pyToLower_eq_space_iff a).mp h)
    have h1 : (pyToLower a != ' ') = true := by simp [bne_iff_ne, hl]
    have h2 : (a != ' ') = true := by simp [bne_iff_ne, ha]
    rw [h1, h2]

theorem filter_space_map (l : List Char) :
    (l.map pyToLower).filter (fun c => c != ' ') =
      (l.filter (fun c => c != ' ')).map pyToLower := by
  rw [List.filter_map]
  congr 1
  apply List.filter_congr
  intro a _
  exact bne_space_pyToLower a

theorem pyNormChars_idem (s : List Char) :
    pyNormChars (pyNormChars s) = pyNormChars s := by
  rw [pyNormChars_eq s, pyNormChars_eq]
  rw [filter_space_map ((s.map pyToLower).filter (fun c => c != ' '))]
  rw [List.filter_filter]
  have h1 : ((s.map pyToLower).filter
      (fun a => (a != ' ') && (a != ' '))) = (s.map pyToLower).filter (fun c => c != ' ') :=
    List.filter_congr (fun a _ => Bool.and_self _)
  rw [h1, filter_space_map]
  rw [List.map_map]
  exact List.map_congr_left (fun a _ => pyToLower_idem a)

theorem ratMul_eq (a b : ℚ) : ratMul a b = a * b := by
  rw [ratMul, Rat.mkRat_eq_div]
  push_cast
  rw [← div_mul_div_comm, Rat.num_div_den, Rat.num_div_den]

theorem ratSub_eq (a b : ℚ) : ratSub a b = a - b := by
  have h1 : ((a.den : ℚ)) ≠ 0 := Nat.cast_ne_zero.mpr a.den_nz
  have h2 : ((b.den : ℚ)) ≠ 0 := Nat.cast_ne_zero.mpr b.den_nz
  rw [ratSub, Rat.mkRat_eq_div]
  push_cast
  conv_rhs => rw [← Rat.num_div_den a, ← Rat.num_div_den b]
  rw [div_sub_div _ _ h1 h2]
  ring

theorem percentToInteger_bounds (x : ℚ) (h0 : 0 ≤ x) (h1 : x ≤ 1) :
    0 ≤ percentToInteger (ratMul x 100) ∧ percentToInteger (ratMul x 100) ≤ 255 := by
  have hnum : ratMul (ratMul x 100) (mkRat 255 100) = x * 255 := by
    rw [ratMul_eq, ratMul_eq, Rat.mkRat_eq_div]
    push_cast
    ring_nf
  have hn0 : (0 : ℚ) ≤ x * 255 := by nlinarith
  have hn255 : x * 255 ≤ 255 := by nlinarith
  unfold percentToInteger
  rw [hnum]
  dsimp only
  split_ifs
  · constructor
    · exact Int.le_floor.mpr (by exact_mod_cast hn0)
    · have : ((Int.floor (x * 255) : ℚ)) ≤ 255 := le_trans (Int.floor_le _) hn255
      exact_mod_cast this
  · constructor
    · have : (0 : ℚ) ≤ ((Int.ceil (x * 255) : ℚ)) := le_trans hn0 (Int.le_ceil _)
      exact_mod_cast this
    · exact Int.ceil_le.mpr (by exact_mod_cast hn255)

theorem toHex2_ball : ∀ n : Nat, n < 256 →
    ((toHex2 ((n : ℤ))).length = 2 ∧ (toHex2 ((n : ℤ))).all isLowerHex = true) := by decide

theorem toHex2_wf (z : ℤ) (hz0 : 0 ≤ z) (hz255 : z ≤ 255) :
    (toHex2 z).length = 2 ∧ (toHex2 z).all isLowerHex = true := by
  have hcast : ((z.toNat : ℤ)) = z := Int.toNat_of_nonneg hz0
  have hlt : z.toNat < 256 := by omega
  have h := toHex2_ball z.toNat hlt
  rwa [hcast] at h

theorem msgSpecPr (t : String) :
    ("invalid color".data.isPrefixOf (("invalid color specification: " ++ t).data)) = true := by
  rw [String.data_append]
  rfl

theorem msgAbbrPr (t : String) :
    ("invalid color".data.isPrefixOf (("invalid color abbreviation: " ++ t).data)) = true := by
  rw [String.data_append]
  rfl

theorem msgNamePr (t : String) :
    ("invalid color".data.isPrefixOf (("invalid color name: " ++ t).data)) = true := by
  rw [String.data_append]
  rfl

theorem wellFormed_mk (ds : List Char) :
    wellFormed (String.mk ('#' :: ds)) = (ds.length == 6 && ds.all isLowerHex) := rfl

theorem resultOK_ok (s : String) : resultOK (Except.ok s) = wellFormed s := rfl

theorem resultOK_graph (m : String) :
    resultOK (Except.error (M21Exception.graphException m)) =
      ("invalid color".data.isPrefixOf m.data) := rfl

theorem wellFormed_hex6 (ds : List Char) (hall : ds.all isHexChar = true)
    (hlen : ds.length = 6) :
    wellFormed (String.mk ('#' :: ds.map pyToLower)) = true := by
  rw [wellFormed_mk, Bool.and_eq_true]
  refine ⟨by rw [List.length_map, hlen]; rfl, ?h⟩
  rw [List.all_map, List.all_eq_true]
  rw [List.all_eq_true] at hall
  intro c hc
  exact isLowerHex_pyToLower_of_isHexChar c (hall c hc)

theorem wellFormed_hex3 (ds : List Char) (hall : ds.all isHexChar = true)
    (hlen : ds.length = 3) :
    wellFormed (String.mk ('#' :: ((ds.map pyToLower).flatMap (fun c => [c, c])))) = true := by
  obtain ⟨a, b, c, rfl⟩ := List.length_eq_three.mp hlen
  simp only [List.all_cons, List.all_nil, Bool.and_eq_true, Bool.and_true] at hall
  have ha := isLowerHex_pyToLower_of_isHexChar a hall.1
  have hb := isLowerHex_pyToLower_of_isHexChar b hall.2.1
  have hc := isLowerHex_pyToLower_of_isHexChar c hall.2.2
  rw [wellFormed_mk]
  simp [List.flatMap_cons, ha, hb, hc]

theorem resultOK_normalize_hex (l : List Char) : resultOK (normalize_hex l) = true := by
  unfold normalize_hex
  split
  · split_ifs with h1 h2 h3
    · rw [resultOK_ok]
      exact wellFormed_hex6 _ h1 h2
    · rw [resultOK_ok]
      exact wellFormed_hex3 _ h1 h3
    · rw [resultOK_graph]
      exact msgSpecPr _
    · rw [resultOK_graph]
      exact msgSpecPr _
  · rw [resultOK_graph]
    exact msgSpecPr _

theorem lookup_wellFormed (t : List (String × String))
    (h : t.all (fun p => wellFormed p.2) = true) :
    ∀ k v, t.lookup k = some v → wellFormed v = true := by
  induction t with
  | nil =>
      intro k v hv
      simp at hv
  | cons a rest ih =>
      intro k v hv
      rw [List.all_cons, Bool.and_eq_true] at h
      obtain ⟨ak, av⟩ := a
      rw [List.lookup_cons] at hv
      cases hk : (k == ak) with
      | true =>
          rw [hk] at hv
          cases hv
          exact h.1
      | false =>
          rw [hk] at hv
          exact ih h.2 k v hv

theorem wellFormed_three (x y z : ℤ) (hx0 : 0 ≤ x) (hx1 : x ≤ 255)
    (hy0 : 0 ≤ y) (hy1 : y ≤ 255) (hz0 : 0 ≤ z) (hz1 : z ≤ 255) :
    wellFormed (String.mk ('#' :: (toHex2 x ++ toHex2 y ++ toHex2 z))) = true := by
  obtain ⟨hxl, hxa⟩ := toHex2_wf x hx0 hx1
  obtain ⟨hyl, hya⟩ := toHex2_wf y hy0 hy1
  obtain ⟨hzl, hza⟩ := toHex2_wf z hz0 hz1
  rw [wellFormed_mk, Bool.and_eq_true]
  constructor
  · rw [List.length_append, List.length_append, hxl, hyl, hzl]
    rfl
  · rw [List.all_append, List.all_append, hxa, hya, hza]
    rfl

theorem resultOK_getColorString (s : String) (hs : s ≠ "") :
    resultOK (getColorString s) = true := by
  unfold getColorString
  split
  · next heq => exact absurd (String.ext heq) hs
  · next c cs heq =>
      by_cases hc : c = '#'
      · rw [if_pos hc]
        exact resultOK_normalize_hex _
      · rw [if_neg hc]
        dsimp only
        split
        · next e heq2 =>
            split_ifs at heq2 with hlen
            · cases hlk : colorMap.lookup (String.mk (pyNormChars (c :: cs))) with
              | some full =>
                  rw [hlk] at heq2
                  cases heq2
              | none =>
                  rw [hlk] at heq2
                  cases heq2
                  rw [resultOK_graph]
                  exact msgAbbrPr _
        · next nm heq2 =>
            cases hlk2 : css3_names_to_hex.lookup nm with
            | some hex =>
                show wellFormed hex = true
                exact lookup_wellFormed css3_names_to_hex (by decide) nm hex hlk2
            | none =>
                show ("invalid color".data.isPrefixOf
                  (("invalid color name: " ++ nm).data)) = true
                exact msgNamePr nm

theorem resultOK_percent3 (a b c : ℚ)
    (ha0 : 0 ≤ a) (ha1 : a ≤ 1) (hb0 : 0 ≤ b) (hb1 : b ≤ 1)
    (hc0 : 0 ≤ c) (hc1 : c ≤ 1) :
    resultOK (rgb_percent_to_hex ([a, b, c].map (fun x => ratMul x 100))) = true := by
  obtain ⟨hA0, hA1⟩ := percentToInteger_bounds a ha0 ha1
  obtain ⟨hB0, hB1⟩ := percentToInteger_bounds b hb0 hb1
  obtain ⟨hC0, hC1⟩ := percentToInteger_bounds c hc0 hc1
  show wellFormed (String.mk ('#' :: (toHex2 (percentToInteger (ratMul a 100)) ++
    toHex2 (percentToInteger (ratMul b 100)) ++
      toHex2 (percentToInteger (ratMul c 100))))) = true
  exact wellFormed_three _ _ _ hA0 hA1 hB0 hB1 hC0 hC1

theorem num_bounds_of_channel (a : ℚ) (hd : a.den = 1) (h1 : 1 ≤ a) (h255 : a ≤ 255) :
    0 ≤ a.num ∧ a.num ≤ 255 := by
  have hcast : ((a.num : ℚ)) = a := Rat.coe_int_num_of_den_eq_one hd
  constructor
  · have : (0 : ℚ) ≤ ((a.num : ℚ)) := by rw [hcast]; linarith
    exact_mod_cast this
  · have : ((a.num : ℚ)) ≤ 255 := by rw [hcast]; exact h255
    exact_mod_cast this

theorem resultOK_getColorListLike (l : List ℚ) (hgood : goodInput (ColorSpec.list l)) :
    resultOK (getColorListLike l) = true := by
  unfold getColorListLike
  by_cases hp : l.any (fun sub => sub < 1) = true
  · rw [if_pos hp]
    have hex : ∃ x ∈ l, x < 1 := by simpa using hp
    obtain ⟨hlen, hrange⟩ := hgood.1 hex
    rcases hlen with h3 | h1
    · obtain ⟨a, b, c, rfl⟩ := List.length_eq_three.mp h3
      rw [if_neg (by simp)]
      exact resultOK_percent3 a b c
        (hrange a (by simp)).1 (hrange a (by simp)).2
        (hrange b (by simp)).1 (hrange b (by simp)).2
        (hrange c (by simp)).1 (hrange c (by simp)).2
    · obtain ⟨a, rfl⟩ := List.length_eq_one.mp h1
      rw [if_pos (by simp)]
      show resultOK (rgb_percent_to_hex ([a, a, a].map (fun x => ratMul x 100))) = true
      exact resultOK_percent3 a a a
        (hrange a (by simp)).1 (hrange a (by simp)).2
        (hrange a (by simp)).1 (hrange a (by simp)).2
        (hrange a (by simp)).1 (hrange a (by simp)).2
  · rw [if_neg hp]
    have hall : ∀ x ∈ l, (1 : ℚ) ≤ x := by
      intro x hx
      simp only [List.any_eq_true, decide_eq_true_eq, not_exists, not_and, not_lt] at hp
      exact hp x hx
    obtain ⟨h3, hint⟩ := hgood.2 hall
    obtain ⟨a, b, c, rfl⟩ := List.length_eq_three.mp h3
    have hda := hint a (by simp)
    have hdb := hint b (by simp)
    have hdc := hint c (by simp)
    have hna := num_bounds_of_channel a hda.1 (hall a (by simp)) hda.2
    have hnb := num_bounds_of_channel b hdb.1 (hall b (by simp)) hdb.2
    have hnc := num_bounds_of_channel c hdc.1 (hall c (by simp)) hdc.2
    show resultOK (if a.den = 1 && b.den = 1 && c.den = 1 then
        Except.ok (String.mk ('#' :: (toHex2 a.num ++ toHex2 b.num ++ toHex2 c.num)))
      else Except.error (M21Exception.typeError ("%x format: an integer is required"))) = true
    rw [if_pos (by simp [hda.1, hdb.1, hdc.1])]
    show wellFormed (String.mk ('#' :: (toHex2 a.num ++ toHex2 b.num ++ toHex2 c.num))) = true
    exact wellFormed_three _ _ _ hna.1 hna.2 hnb.1 hnb.2 hnc.1 hnc.2

/-- C1 (amended): for every input other than the empty string, channel lists
of a length the format string cannot consume, and channel values outside the
range `'%02x'` renders as two hex digits, `getColor` either returns a
well-formed canonical color string (`#` plus 6 lowercase hex digits) or
raises a descriptive `GraphException` whose message begins `invalid color`
(the spec's `InvalidColor`). -/
theorem C1_getColor_wellformed_or_invalid (spec : ColorSpec) (h : goodInput spec) :
    resultOK (getColor spec) = true := by
  cases spec with
  | bool b => cases b <;> rfl
  | str s => exact resultOK_getColorString s h
  | list l => exact resultOK_getColorListLike l h
  | num q =>
      apply resultOK_getColorListLike
      constructor
      · intro hex
        have hq : q < 1 := by
          rcases hex with ⟨x, hx, hlt⟩
          have hxq : x = q := by
            simp only [List.mem_cons, List.not_mem_nil, or_false] at hx
            tauto
          rwa [hxq] at hlt
        refine ⟨Or.inl rfl, ?hr⟩
        intro x hx
        have hxq : x = q := by
          simp only [List.mem_cons, List.not_mem_nil, or_false] at hx
          tauto
        rw [hxq]
        exact ⟨h.1 hq, le_of_lt hq⟩
      · intro hall
        have h1 : 1 ≤ q := hall q (by simp)
        obtain ⟨hden, h255⟩ := h.2 h1
        refine ⟨rfl, ?hr2⟩
        intro x hx
        have hxq : x = q := by
          simp only [List.mem_cons, List.not_mem_nil, or_false] at hx
          tauto
        rw [hxq]
        exact ⟨hden, h255⟩

/-- C1 counterexample: the claim as stated is false on the code —
`getColor('')` raises `IndexError` (`color[0]` on an empty string), not the
descriptive error; `getColor([300, 300, 300])` returns the malformed
string `#12c12c12c`; and `getColor([5, 3])` raises `TypeError` from the
`'#%02x%02x%02x'` formatting. -/
theorem C1_counterexample :
    getColor (ColorSpec.str ("")) =
        Except.error (M21Exception.indexError ("string index out of range"))
      ∧ resultOK (getColor (ColorSpec.str (""))) = false
      ∧ getColor (ColorSpec.list [300, 300, 300]) = Except.ok ("#12c12c12c")
      ∧ wellFormed ("#12c12c12c") = false
      ∧ getColor (ColorSpec.list [5, 3]) =
          Except.error (M21Exception.typeError ("not enough arguments for format string"))
      ∧ resultOK (getColor (ColorSpec.list [5, 3])) = false := by
  refine ⟨by decide, by decide, by decide, by decide, by decide, by decide⟩

/-- Witness for C1 (amended) at the concrete input `0.5`. -/
theorem C1_witness :
    goodInput (ColorSpec.num (mkRat 1 2)) ∧
      resultOK (getColor (ColorSpec.num (mkRat 1 2))) = true :=
  ⟨by
    show (mkRat 1 2 < 1 → 0 ≤ mkRat 1 2) ∧
      (1 ≤ mkRat 1 2 → (mkRat 1 2).den = 1 ∧ mkRat 1 2 ≤ 255)
    decide,
   C1_getColor_wellformed_or_invalid (ColorSpec.num (mkRat 1 2)) (by
    show (mkRat 1 2 < 1 → 0 ≤ mkRat 1 2) ∧
      (1 ≤ mkRat 1 2 → (mkRat 1 2).den = 1 ∧ mkRat 1 2 ≤ 255)
    decide)⟩

theorem getColor_integer_mode (r g b : ℚ) (hr : 1 ≤ r) (hg : 1 ≤ g) (hb : 1 ≤ b) :
    getColor (ColorSpec.list [r, g, b]) = rgb_to_hex [r, g, b] := by
  show getColorListLike [r, g, b] = _
  unfold getColorListLike
  have hany : ([r, g, b].any (fun sub => sub < 1)) = false := by
    simp only [List.any_cons, List.any_nil, Bool.or_false,
      Bool.or_eq_false_iff, decide_eq_false_iff_not, not_lt]
    exact ⟨hr, hg, hb⟩
  rw [hany]
  simp

/-- C2: for 1- or 3-element numeric lists, percent mode is selected iff some
element is strictly below 1 (so all-`≥ 1` lists — including exact `1`s — go
through integer mode), and in integer mode the three values are handed
directly to the 0–255 hex conversion, each channel zero-padded to two hex
digits. -/
theorem C2_percent_mode_iff :
    (∀ l : List ℚ, l.length = 1 ∨ l.length = 3 →
        (((l.any (fun sub => sub < 1)) = true) ↔ ∃ x ∈ l, x < 1))
    ∧ (∀ r g b : ℚ, 1 ≤ r → 1 ≤ g → 1 ≤ b →
        getColor (ColorSpec.list [r, g, b]) = rgb_to_hex [r, g, b])
    ∧ (∀ r g b : ℤ, 1 ≤ r → r ≤ 255 → 1 ≤ g → g ≤ 255 → 1 ≤ b → b ≤ 255 →
        getColor (ColorSpec.list [(r : ℚ), (g : ℚ), (b : ℚ)]) =
          Except.ok (String.mk ('#' :: (toHex2 r ++ toHex2 g ++ toHex2 b)))) := by
  refine ⟨?h1, ?h2, ?h3⟩
  · intro l _
    simp [List.any_eq_true]
  · exact getColor_integer_mode
  · intro r g b hr1 hr2 hg1 hg2 hb1 hb2
    rw [getColor_integer_mode ((r : ℚ)) ((g : ℚ)) ((b : ℚ))
      (by exact_mod_cast hr1) (by exact_mod_cast hg1) (by exact_mod_cast hb1)]
    show (if ((r : ℚ)).den = 1 && ((g : ℚ)).den = 1 && ((b : ℚ)).den = 1 then
        Except.ok (String.mk ('#' :: (toHex2 ((r : ℚ)).num ++ toHex2 ((g : ℚ)).num ++
          toHex2 ((b : ℚ)).num)))
      else Except.error (M21Exception.typeError ("%x format: an integer is required"))) = _
    rw [if_pos (by simp [Rat.den_intCast])]
    simp [Rat.num_intCast]

/-- Witness for C2 at the all-ones list: exact `1`s select integer mode and
produce `#010101`. -/
theorem C2_witness :
    getColor (ColorSpec.list [((1 : ℤ) : ℚ), ((1 : ℤ) : ℚ), ((1 : ℤ) : ℚ)]) =
      Except.ok ("#010101") := by
  have h := C2_percent_mode_iff.2.2 1 1 1 le_rfl (by norm_num) le_rfl (by norm_num)
    le_rfl (by norm_num)
  exact h.trans (by decide)

/-- C3: a boolean input is not treated as a numeric scalar (`common.isNum`
rejects booleans): it falls through to the invalid-color-specification
branch, whose message mentions "specification". -/
theorem C3_bool_is_specification_error :
    (∀ b : Bool, getColor (ColorSpec.bool b) =
        Except.error (M21Exception.graphException
          ("invalid color specification: " ++ pyBoolRepr b)))
    ∧ subOccurs ("specification".data) (("invalid color specification: True").data) = true
    ∧ subOccurs ("specification".data) (("invalid color specification: False").data) = true :=
  ⟨fun _ => rfl, by decide, by decide⟩

theorem accLoop_cons_skip (m u : List Char) (rest : List (List Char × List Char))
    (label : List Char) (hguard : ((m == ("-").data) || (m == ("#").data)) = false) :
    accLoop ((m, u) :: rest) label = accLoop rest label := by
  show (if !m.isEmpty && subOccurs m label && ((m == ("-").data) || (m == ("#").data)) then
      replaceList m u label else accLoop rest label) = accLoop rest label
  rw [hguard, Bool.and_false]
  rfl

theorem accLoop_cons_active (m u : List Char) (rest : List (List Char × List Char))
    (label : List Char) (hm : (!m.isEmpty) = true)
    (hguard : ((m == ("-").data) || (m == ("#").data)) = true) :
    accLoop ((m, u) :: rest) label =
      if subOccurs m label then replaceList m u label else accLoop rest label := by
  show (if !m.isEmpty && subOccurs m label && ((m == ("-").data) || (m == ("#").data)) then
      replaceList m u label else accLoop rest label) = _
  rw [hguard, Bool.and_true, hm, Bool.true_and]

theorem accLoop_eq (label : List Char) :
    accLoop unicodeFromModifier label =
      (if subOccurs ("#".data) label then replaceList ("#".data) ("♯".data) label
       else if subOccurs ("-".data) label then replaceList ("-".data) ("♭".data) label
       else label) := by
  unfold unicodeFromModifier
  rw [accLoop_cons_skip ("####".data) ("𝄪𝄪".data) _ _ rfl,
    accLoop_cons_skip ("###".data) ("♯𝄪".data) _ _ rfl,
    accLoop_cons_skip ("##".data) ("𝄪".data) _ _ rfl]
  rw [accLoop_cons_active ("#".data) ("♯".data) _ _ rfl rfl]
  by_cases h1 : subOccurs ("#".data) label = true
  · rw [if_pos h1, if_pos h1]
  · rw [if_neg h1, if_neg h1]
    rw [accLoop_cons_skip ("----".data) ("𝄫𝄫".data) _ _ rfl,
      accLoop_cons_skip ("---".data) ("𝄫♭".data) _ _ rfl,
      accLoop_cons_skip ("--".data) ("𝄫".data) _ _ rfl]
    rw [accLoop_cons_active ("-".data) ("♭".data) _ _ rfl rfl]
    by_cases h2 : subOccurs ("-".data) label = true
    · rw [if_pos h2, if_pos h2]
    · rw [if_neg h2, if_neg h2]
      rw [accLoop_cons_skip ("".data) ("".data) _ _ rfl]
      rfl

theorem no_hash_left (s : List Char) :
    subOccurs ("#".data) (replaceList ("#".data) ("♯".data) s) = false := by
  rw [show ("#".data) = ['#'] from rfl, show ("♯".data) = ['♯'] from rfl]
  rw [replaceList_single_single, subOccurs_single]
  rw [List.any_map]
  rw [List.any_eq_false]
  intro x _
  by_cases hx : x = '#' <;> simp [hx]

theorem no_dash_left (s : List Char) :
    subOccurs ("-".data) (replaceList ("-".data) ("♭".data) s) = false := by
  rw [show ("-".data) = ['-'] from rfl, show ("♭".data) = ['♭'] from rfl]
  rw [replaceList_single_single, subOccurs_single]
  rw [List.any_map]
  rw [List.any_eq_false]
  intro x _
  by_cases hx : x = '-' <;> simp [hx]

theorem mk_data_eq (s : String) : String.mk s.data = s := by
  obtain ⟨d⟩ := s
  rfl

/-- C4: `accidentalLabelToUnicode` substitutes glyphs only for the two ASCII
modifiers `-` and `#`: a string containing `#` has every occurrence of `#`
replaced by `♯` and processing stops — none is left, and a coexisting `-` is
not converted; otherwise a string containing `-` has every `-` replaced by
`♭`; a string with neither modifier, and any non-string input, is returned
unchanged. -/
theorem C4_accidental_first_match (label : PyLabel) :
    (∀ t, label = PyLabel.nonStr t → accidentalLabelToUnicode label = label)
    ∧ (∀ s, label = PyLabel.str s →
        (subOccurs ("#".data) s.data = true →
            accidentalLabelToUnicode label =
              PyLabel.str (String.mk (replaceList ("#".data) ("♯".data) s.data))
            ∧ subOccurs ("#".data) (replaceList ("#".data) ("♯".data) s.data) = false)
        ∧ (subOccurs ("#".data) s.data = false → subOccurs ("-".data) s.data = true →
            accidentalLabelToUnicode label =
              PyLabel.str (String.mk (replaceList ("-".data) ("♭".data) s.data))
            ∧ subOccurs ("-".data) (replaceList ("-".data) ("♭".data) s.data) = false)
        ∧ (subOccurs ("#".data) s.data = false → subOccurs ("-".data) s.data = false →
            accidentalLabelToUnicode label = label)) := by
  constructor
  · intro t ht
    rw [ht]
    rfl
  · intro s hs
    subst hs
    refine ⟨?h1, ?h2, ?h3⟩
    · intro hh
      refine ⟨?ha, no_hash_left s.data⟩
      show PyLabel.str (String.mk (accLoop unicodeFromModifier s.data)) = _
      rw [accLoop_eq, if_pos hh]
    · intro hh hd
      refine ⟨?hb, no_dash_left s.data⟩
      show PyLabel.str (String.mk (accLoop unicodeFromModifier s.data)) = _
      rw [accLoop_eq, if_neg (by simp [hh]), if_pos hd]
    · intro hh hd
      show PyLabel.str (String.mk (accLoop unicodeFromModifier s.data)) = _
      rw [accLoop_eq, if_neg (by simp [hh]), if_neg (by simp [hd]), mk_data_eq]

/-- Witness for C4 at the concrete label `B-4` (flat modifier converted). -/
theorem C4_witness :
    accidentalLabelToUnicode (PyLabel.str ("B-4")) = PyLabel.str ("B♭4") := by
  have h := ((C4_accidental_first_match (PyLabel.str ("B-4"))).2 ("B-4") rfl).2.1
    (by decide) (by decide)
  exact h.1.trans (by decide)

/-- C5: percent-mode conversion — a numeric scalar and a 1-element
fractional list are expanded to three identical channels; a percent-mode
3-list is handed, channel by channel, the percent value `x * 100` (the
`str(x*100)+'%'` detour) and mapped through the round-half-up
percent-to-255 conversion; concretely `[0.5,0.5,0.5] ↦ #808080` (127.5
rounds up to 128 = 0x80), `0.8 ↦ #cccccc` and `[0.8] ↦ #cccccc`. -/
theorem C5_percent_conversion :
    (∀ q : ℚ, getColor (ColorSpec.num q) = getColor (ColorSpec.list [q, q, q]))
    ∧ (∀ q : ℚ, q < 1 →
        getColor (ColorSpec.list [q]) = getColor (ColorSpec.list [q, q, q]))
    ∧ (∀ r g b : ℚ, ([r, g, b].any (fun sub => sub < 1)) = true →
        getColor (ColorSpec.list [r, g, b]) =
          rgb_percent_to_hex [ratMul r 100, ratMul g 100, ratMul b 100])
    ∧ getColor (ColorSpec.list [mkRat 1 2, mkRat 1 2, mkRat 1 2]) = Except.ok ("#808080")
    ∧ getColor (ColorSpec.num (mkRat 4 5)) = Except.ok ("#cccccc")
    ∧ getColor (ColorSpec.list [mkRat 4 5]) = Except.ok ("#cccccc") := by
  refine ⟨fun q => rfl, ?h2, ?h3, by decide, by decide, by decide⟩
  · intro q hq
    show getColorListLike [q] = getColorListLike [q, q, q]
    unfold getColorListLike
    have ha1 : ([q].any (fun sub => sub < 1)) = true := by simp [hq]
    have ha3 : ([q, q, q].any (fun sub => sub < 1)) = true := by simp [hq]
    rw [ha1, ha3]
    simp
  · intro r g b hp
    show getColorListLike [r, g, b] = _
    unfold getColorListLike
    rw [hp]
    simp

/-- Witness for C5: the 1-element fractional list `[0.5]` is expanded to
three identical channels. -/
theorem C5_witness :
    getColor (ColorSpec.list [mkRat 1 2]) =
      getColor (ColorSpec.list [mkRat 1 2, mkRat 1 2, mkRat 1 2]) :=
  C5_percent_conversion.2.1 (mkRat 1 2) (by decide)

theorem find?_group_pos (opt : List String) (rest : List (List String)) (v : String)
    (h : opt.contains v = true) :
    List.find? (fun g => g.contains v) (opt :: rest) = some opt :=
  List.find?_cons_of_pos _ h

theorem find?_group_neg (opt : List String) (rest : List (List String)) (v : String)
    (h : opt.contains v = false) :
    List.find? (fun g => g.contains v) (opt :: rest) =
      List.find? (fun g => g.contains v) rest :=
  List.find?_cons_of_neg _ (by
    show ¬ (opt.contains v = true)
    rw [h]
    simp)

theorem formatScan_eq_find (groups : List (List String)) (v : String) :
    formatScan groups v = (match groups.find? (fun g => g.contains v) with
      | some g => g.head!
      | none => v) := by
  induction groups with
  | nil => rfl
  | cons opt rest ih =>
      show (if opt.contains v then opt.head! else formatScan rest v) = _
      cases h : (opt.contains v) with
      | true =>
          rw [find?_group_pos _ _ _ h]
          rfl
      | false =>
          rw [find?_group_neg _ _ _ h, if_neg (by simp), ih]

/-- C6: `userFormatsToFormat` is a total function (it never fails) that
agrees everywhere with the spec's resolver — lowercase and strip spaces,
scan the ordered synonym groups, return the first group's canonical (first)
member on first match, otherwise return the normalized input unchanged —
and in particular maps `horizontal` to `horizontalbar` and the unmatched
`4D super chart` to `4dsuperchart`. -/
theorem C6_userFormats_resolver :
    (∀ s : String, userFormatsToFormat s = resolveFormatSpec s)
    ∧ userFormatsToFormat ("horizontal") = ("horizontalbar")
    ∧ userFormatsToFormat ("4D super chart") = ("4dsuperchart") := by
  refine ⟨?h1, by decide, by decide⟩
  intro s
  rw [userFormatsToFormat, formatScan_eq_find]
  rfl

/-- C10: `userFormatsToFormat` is idempotent: each canonical identifier is
the first member of its own group and no earlier group contains it, and an
unmatched result is already normalized. -/
theorem C10_userFormats_idem (s : String) :
    userFormatsToFormat (userFormatsToFormat s) = userFormatsToFormat s := by
  cases h : FORMAT_SYNONYMS.find? (fun g => g.contains (pyNorm s)) with
  | some g =>
      have hg : userFormatsToFormat s = g.head! := by
        rw [userFormatsToFormat, formatScan_eq_find, h]
      rw [hg]
      have hmem : g ∈ FORMAT_SYNONYMS := List.mem_of_find?_eq_some h
      fin_cases hmem <;> decide
  | none =>
      have hg : userFormatsToFormat s = pyNorm s := by
        rw [userFormatsToFormat, formatScan_eq_find, h]
      rw [hg, userFormatsToFormat, formatScan_eq_find]
      have hnn : pyNorm (pyNorm s) = pyNorm s := by
        show String.mk (pyNormChars ((String.mk (pyNormChars s.data)).data)) = _
        rw [show ((String.mk (pyNormChars s.data)).data) = pyNormChars s.data from rfl,
          pyNormChars_idem]
        rfl
      rw [hnn, h]

theorem find?_table_pos (set : List String) (canon : String)
    (rest : List (List String × String)) (n : String) (h : set.contains n = true) :
    List.find? (fun p => p.1.contains n) ((set, canon) :: rest) = some (set, canon) :=
  List.find?_cons_of_pos _ h

theorem find?_table_neg (set : List String) (canon : String)
    (rest : List (List String × String)) (n : String) (h : set.contains n = false) :
    List.find? (fun p => p.1.contains n) ((set, canon) :: rest) =
      List.find? (fun p => p.1.contains n) rest :=
  List.find?_cons_of_neg _ (by
    show ¬ (set.contains n = true)
    rw [h]
    simp)

theorem resolveValueSpec_eq (v : String) :
    resolveValueSpec v =
      (if (["pitch", "pitchspace", "ps"] : List String).contains (pyNorm v) then ("pitch")
       else if (["pitchclass", "pc"] : List String).contains (pyNorm v) then ("pitchclass")
       else if (["duration", "quarterlength"] : List String).contains (pyNorm v) then
         ("quarterlength")
       else if (["offset", "time"] : List String).contains (pyNorm v) then ("offset")
       else if (["dynamic", "dynamics"] : List String).contains (pyNorm v) then ("dynamics")
       else if (["instrument", "instruments", "instrumentation"] : List String).contains
           (pyNorm v) then ("instrument")
       else pyNorm v) := by
  rw [resolveValueSpec]
  unfold VALUE_SYNONYMS
  cases h1 : ((["pitch", "pitchspace", "ps"] : List String).contains (pyNorm v)) with
  | true =>
      rw [find?_table_pos _ _ _ _ h1]
      rfl
  | false =>
  rw [find?_table_neg _ _ _ _ h1, if_neg (by simp)]
  cases h2 : ((["pitchclass", "pc"] : List String).contains (pyNorm v)) with
  | true =>
      rw [find?_table_pos _ _ _ _ h2]
      rfl
  | false =>
  rw [find?_table_neg _ _ _ _ h2, if_neg (by simp)]
  cases h3 : ((["duration", "quarterlength"] : List String).contains (pyNorm v)) with
  | true =>
      rw [find?_table_pos _ _ _ _ h3]
      rfl
  | false =>
  rw [find?_table_neg _ _ _ _ h3, if_neg (by simp)]
  cases h4 : ((["offset", "time"] : List String).contains (pyNorm v)) with
  | true =>
      rw [find?_table_pos _ _ _ _ h4]
      rfl
  | false =>
  rw [find?_table_neg _ _ _ _ h4, if_neg (by simp)]
  cases h5 : ((["dynamic", "dynamics"] : List String).contains (pyNorm v)) with
  | true =>
      rw [find?_table_pos _ _ _ _ h5]
      rfl
  | false =>
  rw [find?_table_neg _ _ _ _ h5, if_neg (by simp)]
  cases h6 : ((["instrument", "instruments", "instrumentation"] :
      List String).contains (pyNorm v)) with
  | true =>
      rw [find?_table_pos _ _ _ _ h6]
      rfl
  | false =>
  rw [find?_table_neg _ _ _ _ h6, if_neg (by simp)]
  rfl

/-- C7: `userValuesToValues` is a total function that maps its input
element-wise (same length, same order, each output depending only on the
corresponding input) through the spec's per-element resolver: normalized
members of the fixed synonym sets go to their canonical identifiers, all
other strings pass through normalized but otherwise unchanged. -/
theorem C7_userValues_elementwise :
    (∀ xs : List String, userValuesToValues xs = xs.map resolveValueSpec)
    ∧ (∀ xs : List String, (userValuesToValues xs).length = xs.length)
    ∧ userValuesToValues [("pitchSpace"), ("Duration")] =
        [("pitch"), ("quarterlength")] := by
  have h1 : ∀ xs : List String, userValuesToValues xs = xs.map resolveValueSpec := by
    intro xs
    induction xs with
    | nil => rfl
    | cons v rest ih =>
        simp only [userValuesToValues, List.map_cons]
        rw [ih, resolveValueSpec_eq]
  exact ⟨h1, fun xs => by rw [h1 xs, List.length_map], by decide⟩

theorem getColorString_hash (s : String) (ds : List Char) (heq : s.data = '#' :: ds) :
    getColorString s = normalize_hex ('#' :: ds) := by
  unfold getColorString
  rw [heq]
  rfl

theorem normalize_hex_6 (ds : List Char) (hall : ds.all isHexChar = true)
    (h6 : ds.length = 6) :
    normalize_hex ('#' :: ds) = Except.ok (String.mk ('#' :: ds.map pyToLower)) := by
  simp only [normalize_hex]
  rw [hall, h6]
  simp

theorem normalize_hex_3 (ds : List Char) (hall : ds.all isHexChar = true)
    (h3 : ds.length = 3) :
    normalize_hex ('#' :: ds) =
      Except.ok (String.mk ('#' :: ((ds.map pyToLower).flatMap (fun c => [c, c])))) := by
  simp only [normalize_hex]
  rw [hall, h3]
  simp

theorem getColor_fix_of_lowerHex6 (X : List Char) (hall : X.all isLowerHex = true)
    (hlen : X.length = 6) :
    getColor (ColorSpec.str (String.mk ('#' :: X))) = Except.ok (String.mk ('#' :: X)) := by
  have hhex : X.all isHexChar = true := by
    rw [List.all_eq_true] at hall ⊢
    exact fun c hc => isHexChar_of_isLowerHex c (hall c hc)
  have hfix : X.map pyToLower = X := by
    have h1 : X.map pyToLower = X.map id := by
      apply List.map_congr_left
      intro a ha
      rw [List.all_eq_true] at hall
      exact pyToLower_fix_of_isLowerHex a (hall a ha)
    rw [h1, List.map_id]
  show getColorString (String.mk ('#' :: X)) = _
  rw [getColorString_hash (String.mk ('#' :: X)) X rfl, normalize_hex_6 X hhex hlen, hfix]

/-- C8: `getColor` is idempotent on valid hex color strings: whatever
canonical string the hex branch returns is a fixed point of `getColor`. -/
theorem C8_hex_idempotent (s t : String) (hv : validHexColor s = true)
    (hok : getColor (ColorSpec.str s) = Except.ok t) :
    getColor (ColorSpec.str t) = Except.ok t := by
  unfold validHexColor at hv
  split at hv
  · next ds heq =>
      rw [Bool.and_eq_true, Bool.or_eq_true] at hv
      obtain ⟨hlen, hall⟩ := hv
      have hgc : getColor (ColorSpec.str s) = getColorString s := rfl
      rw [hgc, getColorString_hash s ds heq] at hok
      rcases hlen with h3 | h6
      · have h3' : ds.length = 3 := by simpa using h3
        rw [normalize_hex_3 ds hall h3'] at hok
        obtain ⟨a, b, c, rfl⟩ := List.length_eq_three.mp h3'
        simp only [List.all_cons, List.all_nil, Bool.and_eq_true, Bool.and_true] at hall
        have ha := isLowerHex_pyToLower_of_isHexChar a hall.1
        have hb := isLowerHex_pyToLower_of_isHexChar b hall.2.1
        have hc := isLowerHex_pyToLower_of_isHexChar c hall.2.2
        cases hok
        apply getColor_fix_of_lowerHex6
        · simp [ha, hb, hc]
        · simp
      · have h6' : ds.length = 6 := by simpa using h6
        rw [normalize_hex_6 ds hall h6'] at hok
        cases hok
        apply getColor_fix_of_lowerHex6
        · rw [List.all_map, List.all_eq_true]
          rw [List.all_eq_true] at hall
          exact fun c hc => isLowerHex_pyToLower_of_isHexChar c (hall c hc)
        · rw [List.length_map, h6']
  · next heq2 => exact absurd hv (by simp)

/-- Witness for C8 at the shorthand hex string `#F50`, whose canonical form
`#ff5500` is a fixed point of `getColor`. -/
theorem C8_witness :
    validHexColor ("#F50") = true ∧
      getColor (ColorSpec.str ("#ff5500")) = Except.ok ("#ff5500") :=
  ⟨by decide, C8_hex_idempotent ("#F50") ("#ff5500") (by decide) (by decide)⟩

theorem getColorListLike_no_graph (l : List ℚ) (m : String)
    (h : getColorListLike l = Except.error (M21Exception.graphException m)) : False := by
  unfold getColorListLike at h
  split_ifs at h
  · unfold rgb_percent_to_hex at h
    split at h <;> simp at h
  · unfold rgb_percent_to_hex at h
    split at h <;> simp at h
  · unfold rgb_to_hex at h
    split at h
    · split_ifs at h <;> simp at h
    · simp at h

theorem normalize_hex_graph (l : List Char) (m : String)
    (h : normalize_hex l = Except.error (M21Exception.graphException m)) :
    ("invalid color".data.isPrefixOf m.data) = true := by
  unfold normalize_hex at h
  split at h
  · split_ifs at h <;>
      (simp only [Except.error.injEq, M21Exception.graphException.injEq] at h ;
       rw [← h] ;
       exact msgSpecPr _)
  · simp only [Except.error.injEq, M21Exception.graphException.injEq] at h
    rw [← h]
    exact msgSpecPr _

theorem getColorString_graph (s : String) (m : String)
    (h : getColorString s = Except.error (M21Exception.graphException m)) :
    ("invalid color".data.isPrefixOf m.data) = true := by
  unfold getColorString at h
  split at h
  · simp at h
  · next c cs heq =>
      split_ifs at h with hc
      · exact normalize_hex_graph _ m h
      · dsimp only at h
        split at h
        · next e heq2 =>
            split_ifs at heq2 with hlen
            · cases hlk : colorMap.lookup (String.mk (pyNormChars (c :: cs))) with
              | some full =>
                  rw [hlk] at heq2
                  cases heq2
              | none =>
                  rw [hlk] at heq2
                  cases heq2
                  simp only [Except.error.injEq, M21Exception.graphException.injEq] at h
                  rw [← h]
                  exact msgAbbrPr _
        · next nm heq2 =>
            cases hlk2 : css3_names_to_hex.lookup nm with
            | some hex =>
                rw [hlk2] at h
                simp at h
            | none =>
                rw [hlk2] at h
                simp only [Except.error.injEq, M21Exception.graphException.injEq] at h
                rw [← h]
                exact msgNamePr _

/-- C9 counterexample: the two failure families are NOT distinguishable by
exception kind — a failed `getColor` and a missing-matplotlib
`getExtendedModules` raise the very same class, `GraphException`. -/
theorem C9_counterexample :
    errClass (getColor (ColorSpec.str ("l"))) = ("GraphException")
    ∧ errClass (getExtendedModules ⟨true, true, true⟩) = ("GraphException")
    ∧ errClass (getColor (ColorSpec.str ("l"))) =
        errClass (getExtendedModules ⟨true, true, true⟩) := by
  refine ⟨by decide, by decide, by decide⟩

/-- C9 (amended): both error sites raise the single class `GraphException`;
a caller can tell a color error from the missing-dependency error only by
message text — every `GraphException` escaping `getColor` has a message
beginning `invalid color`, while the dependency failure's message is
`could not find matplotlib, graphing is not allowed`, which does not. -/
theorem C9_same_class_distinct_messages :
    (∀ env : PlotEnv, env.matplotlibMissing = true →
        getExtendedModules env = Except.error (M21Exception.graphException
          ("could not find matplotlib, graphing is not allowed")))
    ∧ (∀ spec m, getColor spec = Except.error (M21Exception.graphException m) →
        ("invalid color".data.isPrefixOf m.data) = true)
    ∧ ("invalid color".data.isPrefixOf
        ("could not find matplotlib, graphing is not allowed").data) = false := by
  refine ⟨?h1, ?h2, by decide⟩
  · intro env henv
    unfold getExtendedModules
    rw [if_pos henv]
  · intro spec m h
    cases spec with
    | bool b =>
        simp only [getColor, Except.error.injEq, M21Exception.graphException.injEq] at h
        rw [← h]
        exact msgSpecPr _
    | num q => exact absurd h (fun hh => getColorListLike_no_graph [q, q, q] m hh)
    | list l => exact absurd h (fun hh => getColorListLike_no_graph l m hh)
    | str s => exact getColorString_graph s m h

/-- Witness for C9 (amended): the missing-matplotlib failure at a concrete
environment, and the message-prefix fact at the concrete color error for
`'l'`. -/
theorem C9_witness :
    getExtendedModules ⟨true, false, false⟩ = Except.error (M21Exception.graphException
        ("could not find matplotlib, graphing is not allowed"))
    ∧ ("invalid color".data.isPrefixOf ("invalid color abbreviation: l").data) = true :=
  ⟨C9_same_class_distinct_messages.1 ⟨true, false, false⟩ rfl,
   C9_same_class_distinct_messages.2.1 (ColorSpec.str ("l"))
     ("invalid color abbreviation: l") (by decide)⟩
